import Mathlib

/-!
# Verification of the FX Rate ETL pipeline (`src/__main__.py`)

Shallow embedding of the daily FX-rate pipeline: a synchronizer over two
stores (a durable JSON document and a Redis cache), a retrying fetcher with
exponential backoff, and a transformer that elides the base currency.

Modelling conventions:
* Python dicts (insertion ordered, unique keys) are association lists
  `List (String × α)`; `getA` is key lookup, `updateEntry` is
  `dict.update`/`dict.__setitem__` on one key (replace in place, else
  append), `eraseA` is `del d[k]`.
* Exchange rates are `Rat` (the JSON numbers; exact values are irrelevant
  to the claims, only equality matters).
* Fallible Python code (uncaught exceptions) is `Option`/`Except`:
  `none`/`.error` means the call raises.
* The global `TODAY` is an explicit `today : String` parameter; the on-disk
  file and the Redis connection are explicit state values threaded through.
-/

namespace FxRates

/-- A Rate Record: mapping currency code → rate, insertion ordered. -/
abbrev Rates := List (String × Rat)

/-- Python dict lookup `m[k]`/`k in m` on an association list:
returns the first binding of `k`. -/
def getA : List (String × α) → String → Option α
  | [], _ => none
  | p :: rest, k => if p.1 = k then some p.2 else getA rest k

/-- Python `d[k] = v` / `d.update({k: v})`: replaces the binding of `k` in
place if present, otherwise appends it (insertion order preserved). -/
def updateEntry : List (String × α) → String → α → List (String × α)
  | [], k, v => [(k, v)]
  | p :: rest, k, v => if p.1 = k then (k, v) :: rest else p :: updateEntry rest k v

/-- Python `del d[k]`: removes the binding of `k` (dicts have unique keys,
so removing the first occurrence is exact). -/
def eraseA : List (String × α) → String → List (String × α)
  | [], _ => []
  | p :: rest, k => if p.1 = k then rest else p :: eraseA rest k

/-- The state of the durable JSON file on disk.
* `missing`: `os.path.exists` is false;
* `unreadable`: the file exists but opening/reading raises `IOError`;
* `corrupt`: the file reads fine but is not well-formed JSON
  (`json.load` raises `JSONDecodeError`, which is NOT an `IOError`);
* `good doc`: a well-formed document mapping date strings to Rate Records. -/
inductive JsonFile
  | missing
  | unreadable
  | corrupt
  | good (doc : List (String × Rates))
deriving DecidableEq

/-- The Redis connection handle and store: `none` models
`REDIS_CLIENT is None` (connection failed); a `some entries` holds the
cache entries, value = the Rate Record whose `json.dumps` is stored
(serialization round-trips, and every dumped string is non-empty hence
truthy, so presence of the key is what `if stored_data:` observes). -/
abbrev RedisConn := Option (List (String × Rates))

/-- `check_existing_data_in_json` (src/__main__.py:64-77). Only `IOError`
is caught: a missing file returns `False` (existence guard), an unreadable
file returns `False` (caught), but malformed JSON raises `JSONDecodeError`
out of the function (`.error ()`). -/
def check_existing_data_in_json (today : String) : JsonFile → Except Unit Bool
  | .missing => .ok false
  | .unreadable => .ok false
  | .corrupt => .error ()
  | .good doc => .ok (getA doc today).isSome

/-- `check_existing_data_in_redis` (src/__main__.py:80-90): `False` when the
client handle is `None`, else truthiness of `REDIS_CLIENT.get(TODAY)`
(a stored `json.dumps` string is always non-empty, hence key presence). -/
def check_existing_data_in_redis (today : String) : RedisConn → Bool
  | none => false
  | some st => (getA st today).isSome

/-- `save_to_redis` (src/__main__.py:117-129): no-op when the client is
`None`; otherwise `SET` of the first key of `new_data` with its serialized
record (TTL not modelled; no claim mentions it). `none` result models the
`IndexError` when `new_data` is empty and a client is present. -/
def save_to_redis (new_data : List (String × Rates)) : RedisConn → Option RedisConn
  | none => some none
  | some st =>
    match new_data.head? with
    | none => none
    | some (date_key, v) => some (some (updateEntry st date_key v))

/-- `save_to_json` (src/__main__.py:166-184): create `{}` if the file is
missing, read the whole document (raising on unreadable/corrupt state),
then write `new_data` into it only if the last (most recently inserted) key
differs from `new_data`'s first key; otherwise leave the file untouched.
`none` models an escaping exception (read failure or empty `new_data`). -/
def save_to_json (file : JsonFile) (new_data : List (String × Rates)) : Option JsonFile :=
  let file1 : JsonFile := match file with | .missing => .good [] | f => f
  match file1 with
  | .good data =>
    match new_data.head? with
    | none => none
    | some (new_date, _) =>
      let last_date := data.getLast?.map Prod.fst
      if last_date = some new_date then some (.good data)
      else some (.good (new_data.foldl (fun d p => updateEntry d p.1 p.2) data))
  | _ => none

/-- The Python value returned by `sync_data_sources`: the literal `True`,
a Rate Record dict, or the literal `False`. -/
inductive SyncResult
  | boolTrue
  | record (r : Rates)
  | boolFalse
deriving DecidableEq

/-- Python truthiness of a `sync_data_sources` return value: `True` is
truthy, a dict is truthy iff non-empty, `False` is falsy. -/
def SyncResult.truthy : SyncResult → Bool
  | .boolTrue => true
  | .record r => !r.isEmpty
  | .boolFalse => false

/-- `sync_data_sources` (src/__main__.py:93-114). Returns the Python value
together with the final states of both stores; `none` models an escaping
exception (corrupt JSON in either check or in the re-read). -/
def sync_data_sources (today : String) (file : JsonFile) (rc : RedisConn) :
    Option (SyncResult × JsonFile × RedisConn) :=
  match check_existing_data_in_json today file with
  | .error _ => none
  | .ok json_data_exists =>
    let redis_data_exists := check_existing_data_in_redis today rc
    if json_data_exists && redis_data_exists then some (.boolTrue, file, rc)
    else if json_data_exists && !redis_data_exists then
      match file with
      | .good doc =>
        match getA doc today with
        | some rec =>
          match save_to_redis [(today, rec)] rc with
          | some rc1 => some (.record rec, file, rc1)
          | none => none
        | none => none
      | _ => none
    else if redis_data_exists && !json_data_exists then
      match rc with
      | some st =>
        match getA st today with
        | some rec =>
          match save_to_json file [(today, rec)] with
          | some file1 => some (.record rec, file1, rc)
          | none => none
        | none => none
      | none => none
    else some (.boolFalse, file, rc)

/-- A raw API response body (the parsed JSON dict). `base_code` and `rates`
are `Option` because `data.get` tolerates their absence; `otherKeys`
records whether the dict has further keys (needed only for Python
truthiness of the whole dict in `if raw_data:`). -/
structure RawData where
  base_code : Option String
  rates : Option Rates
  otherKeys : Bool
deriving DecidableEq

/-- Python truthiness of the raw response dict: non-empty. -/
def RawData.truthy (d : RawData) : Bool :=
  d.base_code.isSome || d.rates.isSome || d.otherKeys

/-- Outcome of one `requests.get` + `raise_for_status` + `.json()` attempt:
either a parsed 2xx body, or a `requests.exceptions.RequestException`
(connection error, timeout, or the `HTTPError` that `raise_for_status`
raises on any non-2xx status — all subclasses of `RequestException`, so
all are caught and retried). -/
inductive AttemptOutcome
  | success (v : RawData)
  | failure

/-- The retry loop of `extract_rates` from absolute attempt index `attempt`
with `fuel` attempts remaining. Returns (result, number of attempts made,
list of sleep durations in order). A failed attempt at absolute index `i`
is followed by `time.sleep((2 ** i) * base_delay)` — including the last
one, since the sleep is inside the `for` body after the `except`. -/
def extractLoop (outcomes : Nat → AttemptOutcome) (base_delay : Nat) :
    Nat → Nat → Option RawData × Nat × List Nat
  | _, 0 => (none, 0, [])
  | attempt, fuel + 1 =>
    match outcomes attempt with
    | .success v => (some v, 1, [])
    | .failure =>
      let r := extractLoop outcomes base_delay (attempt + 1) fuel
      (r.1, r.2.1 + 1, 2 ^ attempt * base_delay :: r.2.2)

/-- `extract_rates` (src/__main__.py:132-152), defaults
`max_retries=5, base_delay=60`. Total: every outcome sequence yields a
value — no exception escapes the `try`/`except RequestException`. -/
def extract_rates (outcomes : Nat → AttemptOutcome) (max_retries base_delay : Nat) :
    Option RawData × Nat × List Nat :=
  extractLoop outcomes base_delay 0 max_retries

/-- `transform_data` (src/__main__.py:155-163). Returns the Python return
value `{TODAY: rates}` TOGETHER with the post-call state of the argument:
`rates = data.get("rates", {})` aliases the dict inside `data` when the
key is present, so `del rates[base_currency]` mutates the input. -/
def transform_data (today : String) (d : RawData) : List (String × Rates) × RawData :=
  let rates0 := d.rates.getD []
  let rates1 :=
    match d.base_code with
    | some b => if (getA rates0 b).isSome then eraseA rates0 b else rates0
    | none => rates0
  ([(today, rates1)], { d with rates := d.rates.map (fun _ => rates1) })

/-- The `__main__` block (src/__main__.py:187-196): sync, and if the result
is falsy, fetch; if the fetch produced a truthy body, transform and write
to both stores. Returns (whether `extract_rates` was invoked, final file
state, final Redis state); `none` models an escaping exception. -/
def runMain (today : String) (file : JsonFile) (rc : RedisConn)
    (outcomes : Nat → AttemptOutcome) (max_retries base_delay : Nat) :
    Option (Bool × JsonFile × RedisConn) :=
  match sync_data_sources today file rc with
  | none => none
  | some (latest_rates, file1, rc1) =>
    if latest_rates.truthy then some (false, file1, rc1)
    else
      match (extract_rates outcomes max_retries base_delay).1 with
      | none => some (true, file1, rc1)
      | some raw_data =>
        if raw_data.truthy then
          let transformed_data := (transform_data today raw_data).1
          match save_to_redis transformed_data rc1 with
          | none => none
          | some rc2 =>
            match save_to_json file1 transformed_data with
            | none => none
            | some file2 => some (true, file2, rc2)
        else some (true, file1, rc1)

/-- Observer: the Rate Record the durable store holds for `today`
(`none` when the file is not a well-formed document containing it). -/
def jsonRecordToday (today : String) : JsonFile → Option Rates
  | .good doc => getA doc today
  | _ => none

/-- Observer: the Rate Record the cache holds for `today`. -/
def redisRecordToday (today : String) : RedisConn → Option Rates
  | some st => getA st today
  | none => none

/-! ## Association-list lemmas -/

theorem getA_updateEntry_self (m : List (String × α)) (k : String) (v : α) :
    getA (updateEntry m k v) k = some v := by
  induction m with
  | nil => simp [updateEntry, getA]
  | cons p rest ih =>
    by_cases hp : p.1 = k
    · simp [updateEntry, hp, getA]
    · simp [updateEntry, hp, getA, ih]

theorem getA_updateEntry_ne (m : List (String × α)) (k k2 : String) (v : α)
    (h : k2 ≠ k) :
    getA (updateEntry m k v) k2 = getA m k2 := by
  induction m with
  | nil => simp [updateEntry, getA, Ne.symm h]
  | cons p rest ih =>
    by_cases hp : p.1 = k
    · simp [updateEntry, hp, getA, Ne.symm h]
    · by_cases hk : p.1 = k2 <;> simp [updateEntry, hp, getA, hk, ih, h]

theorem getA_eq_none_iff (m : List (String × α)) (k : String) :
    getA m k = none ↔ ∀ p ∈ m, p.1 ≠ k := by
  induction m with
  | nil => simp [getA]
  | cons p rest ih =>
    by_cases hp : p.1 = k <;> simp [getA, hp, ih]

theorem getA_isSome_of_mem (m : List (String × α)) (k : String) :
    ∀ p ∈ m, p.1 = k → (getA m k).isSome := by
  induction m with
  | nil => simp
  | cons q rest ih =>
    intro p hp hpk
    by_cases hq : q.1 = k
    · simp [getA, hq]
    · rcases List.mem_cons.1 hp with rfl | hp
      · exact absurd hpk hq
      · simpa [getA, hq] using ih p hp hpk

theorem getLast?_mem_list (l : List α) (a : α) (h : l.getLast? = some a) : a ∈ l := by
  rcases List.mem_getLast?_eq_getLast (Option.mem_def.2 h) with ⟨hne, rfl⟩
  exact List.getLast_mem hne

theorem getLast_key_ne (data : List (String × α)) (k : String)
    (h : getA data k = none) :
    data.getLast?.map Prod.fst ≠ some k := by
  intro hc
  rcases Option.map_eq_some'.1 hc with ⟨p, hp, hpk⟩
  exact (getA_eq_none_iff data k).1 h p (getLast?_mem_list data p hp) hpk

theorem getA_isSome_of_getLast (data : List (String × α)) (k : String)
    (h : data.getLast?.map Prod.fst = some k) :
    (getA data k).isSome := by
  rcases Option.map_eq_some'.1 h with ⟨p, hp, hpk⟩
  exact getA_isSome_of_mem data k p (getLast?_mem_list data p hp) hpk

theorem eraseA_of_getA_none (m : List (String × α)) (k : String)
    (h : getA m k = none) :
    eraseA m k = m := by
  induction m with
  | nil => rfl
  | cons p rest ih =>
    by_cases hp : p.1 = k
    · simp [getA, hp] at h
    · simp [getA, hp] at h
      simp [eraseA, hp, ih h]

theorem getA_eraseA_self (m : List (String × α)) (k : String)
    (hnd : (m.map Prod.fst).Nodup) :
    getA (eraseA m k) k = none := by
  induction m with
  | nil => rfl
  | cons p rest ih =>
    rw [List.map_cons, List.nodup_cons] at hnd
    by_cases hp : p.1 = k
    · subst hp
      simp only [eraseA, if_pos rfl]
      exact (getA_eq_none_iff rest p.1).2 fun q hq hqk =>
        hnd.1 (hqk ▸ List.mem_map_of_mem Prod.fst hq)
    · simp [eraseA, hp, getA, ih hnd.2]

/-! ## Equation lemmas for the store operations -/

theorem save_to_redis_single (t : String) (r : Rates) (rc : RedisConn) :
    save_to_redis [(t, r)] rc = some (rc.map fun st => updateEntry st t r) := by
  cases rc <;> rfl

theorem save_to_json_good_write (doc : List (String × Rates)) (nd : String) (rec : Rates)
    (h : doc.getLast?.map Prod.fst ≠ some nd) :
    save_to_json (.good doc) [(nd, rec)] = some (.good (updateEntry doc nd rec)) := by
  simp [save_to_json, h]

theorem save_to_json_good_noop (doc : List (String × Rates)) (nd : String) (rec : Rates)
    (h : doc.getLast?.map Prod.fst = some nd) :
    save_to_json (.good doc) [(nd, rec)] = some (.good doc) := by
  simp [save_to_json, h]

theorem save_to_json_good_total (doc : List (String × Rates)) (nd : String) (rec : Rates) :
    ∃ doc1, save_to_json (.good doc) [(nd, rec)] = some (.good doc1) := by
  by_cases h : doc.getLast?.map Prod.fst = some nd
  · exact ⟨doc, save_to_json_good_noop doc nd rec h⟩
  · exact ⟨_, save_to_json_good_write doc nd rec h⟩

theorem save_to_json_missing_single (nd : String) (rec : Rates) :
    save_to_json .missing [(nd, rec)] = some (.good [(nd, rec)]) := rfl

theorem check_redis_eq_isSome (today : String) (rc : RedisConn) :
    check_existing_data_in_redis today rc = (redisRecordToday today rc).isSome := by
  cases rc <;> rfl

/-! ## Equation lemmas for `sync_data_sources`, one per reachable branch -/

theorem sync_eq_both (today : String) (doc : List (String × Rates)) (rc : RedisConn)
    (hj : (getA doc today).isSome)
    (hr : check_existing_data_in_redis today rc = true) :
    sync_data_sources today (.good doc) rc = some (.boolTrue, .good doc, rc) := by
  simp [sync_data_sources, check_existing_data_in_json, hj, hr]

theorem sync_eq_json_only (today : String) (doc : List (String × Rates)) (rc : RedisConn)
    (r : Rates) (hj : getA doc today = some r)
    (hr : check_existing_data_in_redis today rc = false) :
    sync_data_sources today (.good doc) rc =
      some (.record r, .good doc, rc.map fun st => updateEntry st today r) := by
  simp [sync_data_sources, check_existing_data_in_json, hj, hr, save_to_redis_single]

theorem sync_eq_redis_only_good (today : String) (doc : List (String × Rates))
    (st : List (String × Rates)) (r : Rates)
    (hj : getA doc today = none) (hr : getA st today = some r) :
    sync_data_sources today (.good doc) (some st) =
      some (.record r, .good (updateEntry doc today r), some st) := by
  have hlast := getLast_key_ne doc today hj
  simp [sync_data_sources, check_existing_data_in_json, check_existing_data_in_redis,
    hj, hr, save_to_json_good_write doc today r hlast]

theorem sync_eq_redis_only_missing (today : String) (st : List (String × Rates)) (r : Rates)
    (hr : getA st today = some r) :
    sync_data_sources today .missing (some st) =
      some (.record r, .good [(today, r)], some st) := by
  simp [sync_data_sources, check_existing_data_in_json, check_existing_data_in_redis,
    hr, save_to_json_missing_single]

theorem sync_eq_neither (today : String) (file : JsonFile) (rc : RedisConn)
    (hj : check_existing_data_in_json today file = .ok false)
    (hr : check_existing_data_in_redis today rc = false) :
    sync_data_sources today file rc = some (.boolFalse, file, rc) := by
  simp [sync_data_sources, hj, hr]

/-! ## The retry loop, fully characterised -/

theorem extractLoop_master (outcomes : Nat → AttemptOutcome) (B : Nat) :
    ∀ fuel start : Nat,
      (extractLoop outcomes B start fuel).2.1 ≤ fuel ∧
      (∀ v, (extractLoop outcomes B start fuel).1 = some v →
        ∃ i, i < fuel ∧ outcomes (start + i) = .success v ∧
          ∀ j, j < i → outcomes (start + j) = .failure) ∧
      ((extractLoop outcomes B start fuel).1 = none →
        (extractLoop outcomes B start fuel).2.1 = fuel ∧
        ∀ i, i < fuel → outcomes (start + i) = .failure) ∧
      ((∀ i, i < fuel → outcomes (start + i) = .failure) →
        (extractLoop outcomes B start fuel).1 = none) ∧
      ((extractLoop outcomes B start fuel).1.isSome →
        1 ≤ (extractLoop outcomes B start fuel).2.1) ∧
      (extractLoop outcomes B start fuel).2.2 =
        (List.range (extractLoop outcomes B start fuel).2.2.length).map
          (fun i => 2 ^ (start + i) * B) ∧
      (extractLoop outcomes B start fuel).2.2.length =
        (if (extractLoop outcomes B start fuel).1.isSome
         then (extractLoop outcomes B start fuel).2.1 - 1
         else (extractLoop outcomes B start fuel).2.1) := by
  intro fuel
  induction fuel with
  | zero => intro start; simp [extractLoop]
  | succ n ih =>
    intro start
    cases hout : outcomes start with
    | success v =>
      refine ⟨?_, ?_, ?_, ?_, ?_, ?_, ?_⟩
      · simp only [extractLoop, hout]; omega
      · intro v2 hv2
        simp only [extractLoop, hout] at hv2
        obtain rfl := Option.some.inj hv2
        exact ⟨0, Nat.succ_pos n, by simpa using hout,
          fun j hj => absurd hj (Nat.not_lt_zero j)⟩
      · intro hv
        simp [extractLoop, hout] at hv
      · intro hall
        have h0 := hall 0 (Nat.succ_pos n)
        rw [Nat.add_zero, hout] at h0
        exact absurd h0 (by simp)
      · intro _
        simp only [extractLoop, hout]
        omega
      · simp [extractLoop, hout]
      · simp [extractLoop, hout]
    | failure =>
      obtain ⟨ih1, ih2, ih3, ih4, ih5, ih6, ih7⟩ := ih (start + 1)
      refine ⟨?_, ?_, ?_, ?_, ?_, ?_, ?_⟩
      · simp only [extractLoop, hout]; omega
      · intro v hv
        simp only [extractLoop, hout] at hv
        obtain ⟨i, hi, hsucc, hprev⟩ := ih2 v hv
        refine ⟨i + 1, Nat.succ_lt_succ hi, ?_, ?_⟩
        · rw [show start + (i + 1) = start + 1 + i by omega]
          exact hsucc
        · intro j hj
          cases j with
          | zero => simpa using hout
          | succ j2 =>
            have h2 := hprev j2 (Nat.lt_of_succ_lt_succ hj)
            rw [show start + (j2 + 1) = start + 1 + j2 by omega]
            exact h2
      · intro hv
        simp only [extractLoop, hout] at hv ⊢
        obtain ⟨hn, hall⟩ := ih3 hv
        refine ⟨by omega, ?_⟩
        intro i hi
        cases i with
        | zero => simpa using hout
        | succ i2 =>
          have h2 := hall i2 (Nat.lt_of_succ_lt_succ hi)
          rw [show start + (i2 + 1) = start + 1 + i2 by omega]
          exact h2
      · intro hall
        simp only [extractLoop, hout]
        refine ih4 ?_
        intro i hi
        have h2 := hall (i + 1) (Nat.succ_lt_succ hi)
        rw [show start + 1 + i = start + (i + 1) by omega]
        exact h2
      · intro _
        simp only [extractLoop, hout]
        omega
      · simp only [extractLoop, hout, List.length_cons]
        rw [List.range_succ_eq_map, List.map_cons, List.map_map]
        refine List.cons_eq_cons.mpr ⟨by simp, ?_⟩
        have hfun : (fun i => 2 ^ (start + i) * B) ∘ Nat.succ =
            fun i => 2 ^ (start + 1 + i) * B := by
          funext i
          simp only [Function.comp_apply]
          rw [show start + Nat.succ i = start + 1 + i by omega]
        rw [hfun]
        exact ih6
      · simp only [extractLoop, hout, List.length_cons]
        cases hres : (extractLoop outcomes B (start + 1) n).1 with
        | none =>
          rw [hres] at ih7
          simp only [Option.isSome_none, Bool.false_eq_true, if_false] at ih7 ⊢
          omega
        | some v2 =>
          have h1 := ih5 (by simp [hres])
          rw [hres] at ih7
          simp only [Option.isSome_some, if_true] at ih7 ⊢
          omega

/-! ## `runMain` helper lemmas -/

/-- After a truthy sync result, `runMain` stops without fetching. -/
theorem runMain_no_fetch (today : String) (file : JsonFile) (rc : RedisConn)
    (outcomes : Nat → AttemptOutcome) (N B : Nat)
    (res : SyncResult) (file1 : JsonFile) (rc1 : RedisConn)
    (hs : sync_data_sources today file rc = some (res, file1, rc1))
    (ht : res.truthy = true) :
    runMain today file rc outcomes N B = some (false, file1, rc1) := by
  simp [runMain, hs, ht]

/-- After a falsy sync result, `runMain` invokes the fetcher and then runs to
completion (no exception), provided the intermediate file state is a
well-formed document or missing; an unavailable cache stays untouched. -/
theorem runMain_fetch_total (today : String) (file : JsonFile) (rc : RedisConn)
    (outcomes : Nat → AttemptOutcome) (N B : Nat)
    (res : SyncResult) (file1 : JsonFile) (rc1 : RedisConn)
    (hs : sync_data_sources today file rc = some (res, file1, rc1))
    (ht : res.truthy = false)
    (hfile1 : (∃ doc, file1 = .good doc) ∨ file1 = .missing) :
    ∃ file2 rc2, runMain today file rc outcomes N B = some (true, file2, rc2) ∧
      (rc1 = none → rc2 = none) := by
  cases hx : (extract_rates outcomes N B).1 with
  | none => exact ⟨file1, rc1, by simp [runMain, hs, ht, hx], fun h => h⟩
  | some raw =>
    by_cases htr : raw.truthy
    · obtain ⟨rtr, hT⟩ : ∃ r0, (transform_data today raw).1 = [(today, r0)] := ⟨_, rfl⟩
      rcases hfile1 with ⟨doc, rfl⟩ | rfl
      · obtain ⟨doc2, hd2⟩ := save_to_json_good_total doc today rtr
        refine ⟨.good doc2, rc1.map fun st => updateEntry st today rtr, ?_, ?_⟩
        · simp [runMain, hs, ht, hx, htr, hT, save_to_redis_single, hd2]
        · intro h; simp [h]
      · refine ⟨.good [(today, rtr)], rc1.map fun st => updateEntry st today rtr, ?_, ?_⟩
        · simp [runMain, hs, ht, hx, htr, hT, save_to_redis_single, save_to_json_missing_single]
        · intro h; simp [h]
    · refine ⟨file1, rc1, ?_, fun h => h⟩
      simp only [Bool.not_eq_true] at htr
      simp [runMain, hs, ht, hx, htr]

/-! ## Claim theorems -/

/-- C4: Fetcher totality and failure signalling. `extract_rates` makes at most
`max_retries` attempts; it returns the parsed body of the first successful 2xx
attempt (all earlier attempts having failed), and it returns the Failure value
`None` exactly when all `max_retries` attempts fail. A non-2xx response raises
`HTTPError`, a subclass of `RequestException`, so it is a failed attempt and is
retried, never a success; being a total function of the outcome sequence, no
exception escapes to the caller. -/
theorem extract_rates_totality (outcomes : Nat → AttemptOutcome) (N B : Nat) :
    (extract_rates outcomes N B).2.1 ≤ N ∧
    (∀ v, (extract_rates outcomes N B).1 = some v →
      ∃ i, i < N ∧ outcomes i = .success v ∧ ∀ j, j < i → outcomes j = .failure) ∧
    ((extract_rates outcomes N B).1 = none →
      (extract_rates outcomes N B).2.1 = N ∧ ∀ i, i < N → outcomes i = .failure) ∧
    ((∀ i, i < N → outcomes i = .failure) → (extract_rates outcomes N B).1 = none) := by
  obtain ⟨h1, h2, h3, h4, _, _, _⟩ := extractLoop_master outcomes B N 0
  refine ⟨h1, ?_, ?_, ?_⟩
  · intro v hv
    obtain ⟨i, hi, hs, hp⟩ := h2 v hv
    exact ⟨i, hi, by simpa using hs, fun j hj => by simpa using hp j hj⟩
  · intro hv
    obtain ⟨hn, hall⟩ := h3 hv
    exact ⟨hn, fun i hi => by simpa using hall i hi⟩
  · intro hall
    exact h4 fun i hi => by simpa using hall i hi

/-- Witness for C4 at a concrete outcome sequence: attempt 0 fails,
attempt 1 succeeds, within a budget of 3 attempts. -/
theorem extract_rates_totality_witness :
    ∃ i, i < 3 ∧
      (fun a => if a = 1 then AttemptOutcome.success ⟨some "USD", some [], false⟩
                else AttemptOutcome.failure) i =
        .success ⟨some "USD", some [], false⟩ ∧
      ∀ j, j < i →
        (fun a => if a = 1 then AttemptOutcome.success ⟨some "USD", some [], false⟩
                  else AttemptOutcome.failure) j = .failure :=
  (extract_rates_totality
    (fun a => if a = 1 then .success ⟨some "USD", some [], false⟩ else .failure) 3 60).2.1
    ⟨some "USD", some [], false⟩ (by rfl)

/-- C5 counterexample: a durable document that exists and is readable but is
not well-formed JSON makes `check_existing_data_in_json` raise
(`json.JSONDecodeError` is not an `IOError`, the only class caught), rather
than return false. -/
theorem json_check_corrupt_raises :
    check_existing_data_in_json "2024-06-01" .corrupt = .error () ∧
    check_existing_data_in_json "2024-06-01" .corrupt ≠ .ok false :=
  ⟨rfl, fun h => by cases h⟩

/-- C5 (amended): a missing durable document, or one whose read raises
`IOError`, degrades to "no existing data" (`false`, no exception); but a
readable document that is not well-formed JSON raises `JSONDecodeError`
out of the check instead of degrading. -/
theorem json_check_degradation (today : String) :
    check_existing_data_in_json today .missing = .ok false ∧
    check_existing_data_in_json today .unreadable = .ok false ∧
    check_existing_data_in_json today .corrupt = .error () :=
  ⟨rfl, rfl, rfl⟩

/-- C6 counterexample: with `max_retries = 1` and `base_delay = 60`, a single
failing attempt is followed by a 60-second sleep even though no further
attempt follows it — the number of sleeps is not bounded by attempts − 1, so
a sleep does not occur only between a failed attempt and the next attempt. -/
theorem extract_rates_sleep_after_final :
    extract_rates (fun _ => .failure) 1 60 = (none, 1, [60]) ∧
    ¬((extract_rates (fun _ => .failure) 1 60).2.2.length ≤
      (extract_rates (fun _ => .failure) 1 60).2.1 - 1) := by
  exact ⟨rfl, by decide⟩

/-- C6 (amended): the total number of attempts never exceeds `max_retries`;
the k-th sleep (0-indexed) lasts `2 ^ k * base_delay` seconds, i.e. the sleep
after the failed attempt of index i lasts `base_delay * 2 ^ i`; and a sleep
follows every failed attempt — including the final one when every attempt
fails — so there are attempts − 1 sleeps when a success occurs and exactly
as many sleeps as attempts when the fetch exhausts its budget. -/
theorem extract_rates_backoff (outcomes : Nat → AttemptOutcome) (N B : Nat) :
    (extract_rates outcomes N B).2.1 ≤ N ∧
    (extract_rates outcomes N B).2.2 =
      (List.range (extract_rates outcomes N B).2.2.length).map (fun i => 2 ^ i * B) ∧
    (extract_rates outcomes N B).2.2.length =
      (if (extract_rates outcomes N B).1.isSome
       then (extract_rates outcomes N B).2.1 - 1
       else (extract_rates outcomes N B).2.1) := by
  obtain ⟨h1, _, _, _, _, h6, h7⟩ := extractLoop_master outcomes B N 0
  refine ⟨h1, ?_, h7⟩
  simpa using h6

/-- C7: Base-currency elision. `transform_data` returns the single-entry
mapping from today's date to the response's rate mapping with the entry for
the base currency removed; if the base-currency key is absent from the rate
mapping, or the rates field is missing entirely, the removal is a no-op and
the function does not fail; and on the spec's concrete example the "USD" key
is gone. -/
theorem transform_data_elision (today : String) (d : RawData) :
    ∃ r : Rates,
      (transform_data today d).1 = [(today, r)] ∧
      r = (match d.base_code with
           | some b => eraseA (d.rates.getD []) b
           | none => d.rates.getD []) ∧
      (∀ b, d.base_code = some b → ((d.rates.getD []).map Prod.fst).Nodup →
        getA r b = none) ∧
      (d.rates = none → r = []) ∧
      (∀ b, d.base_code = some b → getA (d.rates.getD []) b = none →
        r = d.rates.getD []) ∧
      (transform_data today
          { base_code := some "USD",
            rates := some [("USD", (1 : Rat)), ("EUR", (9 : Rat)/10)],
            otherKeys := false }).1 =
        [(today, [("EUR", (9 : Rat)/10)])] := by
  have key : (transform_data today d).1 =
      [(today, (match d.base_code with
                | some b => eraseA (d.rates.getD []) b
                | none => d.rates.getD []))] := by
    cases hb : d.base_code with
    | none => simp [transform_data, hb]
    | some b =>
      by_cases hg : (getA (d.rates.getD []) b).isSome
      · simp [transform_data, hb, hg]
      · have hnone : getA (d.rates.getD []) b = none :=
          Option.not_isSome_iff_eq_none.1 hg
        simp [transform_data, hb, hg, eraseA_of_getA_none _ b hnone]
  refine ⟨_, key, rfl, ?_, ?_, ?_, rfl⟩
  · intro b hb hnd
    rw [hb]
    exact getA_eraseA_self _ b hnd
  · intro h
    cases hb : d.base_code <;> simp [h, eraseA]
  · intro b hb hnone
    rw [hb]
    exact eraseA_of_getA_none _ b hnone

/-- Witness for C7 at the spec's concrete input: the result is a single
record under today's date with no "USD" key. -/
theorem transform_data_elision_witness :
    ∃ r : Rates,
      (transform_data "2024-06-01"
        { base_code := some "USD",
          rates := some [("USD", (1 : Rat)), ("EUR", (9 : Rat)/10)],
          otherKeys := false }).1 = [("2024-06-01", r)] ∧
      getA r "USD" = none := by
  obtain ⟨r, h1, _, h3, _⟩ := transform_data_elision "2024-06-01"
    { base_code := some "USD",
      rates := some [("USD", (1 : Rat)), ("EUR", (9 : Rat)/10)], otherKeys := false }
  exact ⟨r, h1, h3 "USD" rfl (by decide)⟩

/-- C8 counterexample: `transform_data` is not side-effect free on its input.
On the spec's own example, `rates = data.get("rates")` aliases the dict held
inside `data`, so `del rates[base_currency]` removes the "USD" entry from the
caller's raw response: after the call the input differs from what it was. -/
theorem transform_data_mutates_input :
    (transform_data "2024-06-01"
      { base_code := some "USD",
        rates := some [("USD", (1 : Rat)), ("EUR", (9 : Rat)/10)],
        otherKeys := false }).2 ≠
    { base_code := some "USD",
      rates := some [("USD", (1 : Rat)), ("EUR", (9 : Rat)/10)],
      otherKeys := false } := by
  decide

/-- C8 (amended): `transform_data` is deterministic — a function of its input
and the current date — but it does not leave its input unchanged: the call
removes the base-currency entry from the input's rates mapping in place
whenever the rates field is present and contains the base currency; when the
base currency is absent from the rates mapping (or the field is missing), the
input is returned exactly as it was. -/
theorem transform_data_effect (today : String) (d : RawData) :
    (transform_data today d).2.base_code = d.base_code ∧
    (transform_data today d).2.otherKeys = d.otherKeys ∧
    (transform_data today d).2.rates =
      d.rates.map (fun r =>
        match d.base_code with
        | some b => eraseA r b
        | none => r) ∧
    ((∀ b, d.base_code = some b → getA (d.rates.getD []) b = none) →
      (transform_data today d).2 = d) := by
  refine ⟨rfl, rfl, ?_, ?_⟩
  · cases hr : d.rates with
    | none => simp [transform_data, hr]
    | some r =>
      cases hb : d.base_code with
      | none => simp [transform_data, hr, hb]
      | some b =>
        by_cases hg : (getA r b).isSome
        · simp [transform_data, hr, hb, hg]
        · have hnone : getA r b = none := Option.not_isSome_iff_eq_none.1 hg
          simp [transform_data, hr, hb, hg, eraseA_of_getA_none r b hnone]
  · intro hno
    obtain ⟨bc, rts, ok⟩ := d
    cases rts with
    | none => rfl
    | some r =>
      cases bc with
      | none => simp [transform_data]
      | some b =>
        have hnone : getA r b = none := by simpa using hno b rfl
        simp [transform_data, hnone, eraseA_of_getA_none r b hnone]

/-- Witness for C8 (amended) at a concrete input whose rates mapping lacks
the base currency: the input is unchanged by the call. -/
theorem transform_data_effect_witness :
    (transform_data "2024-06-01"
      { base_code := some "GBP", rates := some [("EUR", (1 : Rat))],
        otherKeys := false }).2 =
    { base_code := some "GBP", rates := some [("EUR", (1 : Rat))],
      otherKeys := false } := by
  refine (transform_data_effect "2024-06-01" _).2.2.2 ?_
  intro b hb
  cases hb
  decide

/-- C10: Durable write preserves history. For every well-formed existing
document and every snapshot, `save_to_json` succeeds, and every key other
than the snapshot's date maps afterwards to exactly the record it had before
the write — only the snapshot's own date key can be added or replaced. -/
theorem save_to_json_preserves_history
    (data : List (String × Rates)) (nd : String) (rec : Rates) (k : String)
    (hk : k ≠ nd) :
    ∃ doc1, save_to_json (.good data) [(nd, rec)] = some (.good doc1) ∧
      getA doc1 k = getA data k := by
  by_cases h : data.getLast?.map Prod.fst = some nd
  · exact ⟨data, save_to_json_good_noop data nd rec h, rfl⟩
  · exact ⟨updateEntry data nd rec, save_to_json_good_write data nd rec h,
      getA_updateEntry_ne data nd k rec hk⟩

/-- Witness for C10: writing 2024-06-01 into a document holding 2024-05-31
leaves the 2024-05-31 record exactly as it was. -/
theorem save_to_json_preserves_history_witness :
    ∃ doc1, save_to_json (.good [("2024-05-31", [("EUR", (1 : Rat))])])
        [("2024-06-01", [("EUR", (2 : Rat))])] = some (.good doc1) ∧
      getA doc1 "2024-05-31" =
        getA [("2024-05-31", [("EUR", (1 : Rat))])] "2024-05-31" :=
  save_to_json_preserves_history [("2024-05-31", [("EUR", (1 : Rat))])]
    "2024-06-01" [("EUR", (2 : Rat))] "2024-05-31" (by decide)

/-- C3: Idempotence of the durable write. When the most-recently-inserted
(last) key of the document equals the new snapshot's date, `save_to_json`
leaves the document unchanged (the dedup guard makes the write a no-op);
consequently, a full pipeline run starting from a durable store whose last
key is today finishes with that document byte-for-byte unchanged — no
duplicate entry for today and no change to the stored record's content. -/
theorem save_to_json_dedup_idempotent
    (data : List (String × Rates)) (nd : String) (rec : Rates)
    (hlast : data.getLast?.map Prod.fst = some nd) :
    save_to_json (.good data) [(nd, rec)] = some (.good data) ∧
    ∀ (rc : RedisConn) (outcomes : Nat → AttemptOutcome) (N B : Nat),
      ∃ fetched rc2,
        runMain nd (.good data) rc outcomes N B = some (fetched, .good data, rc2) := by
  refine ⟨save_to_json_good_noop data nd rec hlast, ?_⟩
  intro rc outcomes N B
  have hjs : (getA data nd).isSome := getA_isSome_of_getLast data nd hlast
  obtain ⟨r, hr⟩ := Option.isSome_iff_exists.1 hjs
  cases hrc : check_existing_data_in_redis nd rc with
  | true =>
    have hs := sync_eq_both nd data rc hjs hrc
    exact ⟨false, rc, runMain_no_fetch nd _ rc outcomes N B _ _ _ hs rfl⟩
  | false =>
    have hs := sync_eq_json_only nd data rc r hr hrc
    by_cases hre : r = []
    · subst hre
      cases hx : (extract_rates outcomes N B).1 with
      | none =>
        refine ⟨true, rc.map fun st => updateEntry st nd [], ?_⟩
        simp [runMain, hs, hx, SyncResult.truthy]
      | some raw =>
        by_cases htr : raw.truthy
        · obtain ⟨rtr, hT⟩ : ∃ r0, (transform_data nd raw).1 = [(nd, r0)] := ⟨_, rfl⟩
          refine ⟨true,
            (rc.map fun st => updateEntry st nd []).map fun st => updateEntry st nd rtr, ?_⟩
          simp [runMain, hs, hx, htr, hT, SyncResult.truthy,
            save_to_redis_single, save_to_json_good_noop data nd rtr hlast]
        · refine ⟨true, rc.map fun st => updateEntry st nd [], ?_⟩
          simp only [Bool.not_eq_true] at htr
          simp [runMain, hs, hx, htr, SyncResult.truthy]
    · have ht : (SyncResult.record r).truthy = true := by
        simp [SyncResult.truthy, hre]
      exact ⟨false, _, runMain_no_fetch nd _ rc outcomes N B _ _ _ hs ht⟩

/-- Witness for C3: writing today's snapshot into a document whose last key
is already today is a no-op. -/
theorem save_to_json_dedup_idempotent_witness :
    save_to_json (.good [("2024-06-01", [("EUR", (1 : Rat))])])
      [("2024-06-01", [("EUR", (1 : Rat))])] =
      some (.good [("2024-06-01", [("EUR", (1 : Rat))])]) :=
  (save_to_json_dedup_idempotent [("2024-06-01", [("EUR", (1 : Rat))])]
    "2024-06-01" [("EUR", (1 : Rat))] rfl).1

/-- C9: Cache graceful degradation. With the cache backend unavailable
(client handle absent), the cache existence check returns false rather than
raising, the cache write is a no-op that changes no store, and the pipeline
still runs to completion using only the durable store, its cache state
staying absent throughout. -/
theorem cache_graceful_degradation (today : String) (file : JsonFile)
    (new_data : List (String × Rates)) (outcomes : Nat → AttemptOutcome) (N B : Nat)
    (hf : (∃ doc, file = .good doc) ∨ file = .missing) :
    check_existing_data_in_redis today none = false ∧
    save_to_redis new_data none = some none ∧
    ∃ fetched file1,
      runMain today file none outcomes N B = some (fetched, file1, none) := by
  refine ⟨rfl, rfl, ?_⟩
  rcases hf with ⟨doc, rfl⟩ | rfl
  · cases hj : getA doc today with
    | some r =>
      have hs := sync_eq_json_only today doc none r hj rfl
      by_cases hre : r = []
      · subst hre
        obtain ⟨file2, rc2, hrun, hnone⟩ := runMain_fetch_total today _ none outcomes N B
          _ _ _ hs (by simp [SyncResult.truthy]) (Or.inl ⟨doc, rfl⟩)
        have h0 : rc2 = none := hnone rfl
        rw [h0] at hrun
        exact ⟨true, file2, hrun⟩
      · have ht : (SyncResult.record r).truthy = true := by
          simp [SyncResult.truthy, hre]
        exact ⟨false, .good doc, runMain_no_fetch today _ none outcomes N B _ _ _ hs ht⟩
    | none =>
      have hs := sync_eq_neither today (.good doc) none
        (by simp [check_existing_data_in_json, hj]) rfl
      obtain ⟨file2, rc2, hrun, hnone⟩ := runMain_fetch_total today _ none outcomes N B
        _ _ _ hs rfl (Or.inl ⟨doc, rfl⟩)
      have h0 : rc2 = none := hnone rfl
      rw [h0] at hrun
      exact ⟨true, file2, hrun⟩
  · have hs := sync_eq_neither today .missing none rfl rfl
    obtain ⟨file2, rc2, hrun, hnone⟩ := runMain_fetch_total today _ none outcomes N B
      _ _ _ hs rfl (Or.inr rfl)
    have h0 : rc2 = none := hnone rfl
    rw [h0] at hrun
    exact ⟨true, file2, hrun⟩

/-- Witness for C9: a run with no cache backend and no durable file completes
(fetch fails, nothing written, no exception). -/
theorem cache_graceful_degradation_witness :
    check_existing_data_in_redis "2024-06-01" none = false ∧
    save_to_redis [] none = some none ∧
    ∃ fetched file1,
      runMain "2024-06-01" .missing none (fun _ => .failure) 1 1 =
        some (fetched, file1, none) :=
  cache_graceful_degradation "2024-06-01" .missing [] (fun _ => .failure) 1 1 (Or.inr rfl)

/-- C1 counterexample: when both stores hold today's key but with different
Rate Records, `sync_data_sources` returns the truthy `True` (not a
"fetch needed" signal) yet leaves the two stores holding different records —
so it neither drives the stores to identical records nor returns falsy. -/
theorem sync_divergent_stores_counterexample :
    sync_data_sources "2024-06-01"
        (.good [("2024-06-01", [("EUR", (1 : Rat))])])
        (some [("2024-06-01", [("JPY", (2 : Rat))])]) =
      some (.boolTrue, .good [("2024-06-01", [("EUR", (1 : Rat))])],
            some [("2024-06-01", [("JPY", (2 : Rat))])]) ∧
    SyncResult.truthy .boolTrue = true ∧
    jsonRecordToday "2024-06-01" (.good [("2024-06-01", [("EUR", (1 : Rat))])]) ≠
      redisRecordToday "2024-06-01" (some [("2024-06-01", [("JPY", (2 : Rat))])]) :=
  ⟨by rfl, rfl, by decide⟩

/-- C1 (amended): with a well-formed (or absent) durable document and an
available cache backend, a single invocation of `sync_data_sources` never
raises, and: it returns the value `False` ("fetch needed") exactly when
neither store has today's key, leaving both stores unchanged; when exactly
one store has today's record it copies that record into the other store, so
both stores afterwards hold that identical record; when both stores already
have today's key it returns the truthy `True` and changes nothing — without
reconciling their (possibly different) contents. -/
theorem sync_reconciliation_cases (today : String) (file : JsonFile)
    (st : List (String × Rates))
    (hf : (∃ doc, file = .good doc) ∨ file = .missing) :
    ∃ res file1 rc1,
      sync_data_sources today file (some st) = some (res, file1, rc1) ∧
      (res = .boolFalse ↔ jsonRecordToday today file = none ∧ getA st today = none) ∧
      ((jsonRecordToday today file).isSome → (getA st today).isSome →
        res = .boolTrue ∧ file1 = file ∧ rc1 = some st) ∧
      (∀ r, jsonRecordToday today file = some r → getA st today = none →
        res = .record r ∧ file1 = file ∧
        jsonRecordToday today file1 = some r ∧ redisRecordToday today rc1 = some r) ∧
      (∀ r, getA st today = some r → jsonRecordToday today file = none →
        res = .record r ∧ rc1 = some st ∧
        jsonRecordToday today file1 = some r ∧ redisRecordToday today rc1 = some r) ∧
      (jsonRecordToday today file = none → getA st today = none →
        res = .boolFalse ∧ file1 = file ∧ rc1 = some st) := by
  rcases hf with ⟨doc, rfl⟩ | rfl
  · cases hj : getA doc today with
    | some rj =>
      cases hk : getA st today with
      | some rk =>
        refine ⟨.boolTrue, .good doc, some st,
          sync_eq_both today doc (some st) (by simp [hj])
            (by simp [check_existing_data_in_redis, hk]), ?_, ?_, ?_, ?_, ?_⟩
        · simp [jsonRecordToday, hj, hk]
        · intro _ _; exact ⟨rfl, rfl, rfl⟩
        · intro r h1 h2; simp [hk] at h2
        · intro r h1 h2; simp [jsonRecordToday, hj] at h2
        · intro h1 h2; simp [jsonRecordToday, hj] at h1
      | none =>
        refine ⟨.record rj, .good doc, some (updateEntry st today rj),
          sync_eq_json_only today doc (some st) rj hj
            (by simp [check_existing_data_in_redis, hk]), ?_, ?_, ?_, ?_, ?_⟩
        · simp [jsonRecordToday, hj]
        · intro _ h2; simp [hk] at h2
        · intro r h1 h2
          simp only [jsonRecordToday, hj, Option.some.injEq] at h1
          subst h1
          exact ⟨rfl, rfl, by simp [jsonRecordToday, hj],
            by simp [redisRecordToday, getA_updateEntry_self]⟩
        · intro r h1 h2; simp [hk] at h1
        · intro h1 h2; simp [jsonRecordToday, hj] at h1
    | none =>
      cases hk : getA st today with
      | some rk =>
        refine ⟨.record rk, .good (updateEntry doc today rk), some st,
          sync_eq_redis_only_good today doc st rk hj hk, ?_, ?_, ?_, ?_, ?_⟩
        · simp [jsonRecordToday, hj, hk]
        · intro h1 h2; simp [jsonRecordToday, hj] at h1
        · intro r h1 h2; simp [jsonRecordToday, hj] at h1
        · intro r h1 h2
          simp only [hk, Option.some.injEq] at h1
          subst h1
          exact ⟨rfl, rfl, by simp [jsonRecordToday, getA_updateEntry_self],
            by simp [redisRecordToday, hk]⟩
        · intro h1 h2; simp [hk] at h2
      | none =>
        refine ⟨.boolFalse, .good doc, some st,
          sync_eq_neither today (.good doc) (some st)
            (by simp [check_existing_data_in_json, hj])
            (by simp [check_existing_data_in_redis, hk]), ?_, ?_, ?_, ?_, ?_⟩
        · simp [jsonRecordToday, hj, hk]
        · intro h1 h2; simp [jsonRecordToday, hj] at h1
        · intro r h1 h2; simp [jsonRecordToday, hj] at h1
        · intro r h1 h2; simp [hk] at h1
        · intro _ _; exact ⟨rfl, rfl, rfl⟩
  · cases hk : getA st today with
    | some rk =>
      refine ⟨.record rk, .good [(today, rk)], some st,
        sync_eq_redis_only_missing today st rk hk, ?_, ?_, ?_, ?_, ?_⟩
      · simp [jsonRecordToday, hk]
      · intro h1 h2; simp [jsonRecordToday] at h1
      · intro r h1 h2; simp [jsonRecordToday] at h1
      · intro r h1 h2
        simp only [hk, Option.some.injEq] at h1
        subst h1
        exact ⟨rfl, rfl, by simp [jsonRecordToday, getA],
          by simp [redisRecordToday, hk]⟩
      · intro h1 h2; simp [hk] at h2
    | none =>
      refine ⟨.boolFalse, .missing, some st,
        sync_eq_neither today .missing (some st) rfl
          (by simp [check_existing_data_in_redis, hk]), ?_, ?_, ?_, ?_, ?_⟩
      · simp [jsonRecordToday, hk]
      · intro h1 h2; simp [jsonRecordToday] at h1
      · intro r h1 h2; simp [jsonRecordToday] at h1
      · intro r h1 h2; simp [hk] at h1
      · intro _ _; exact ⟨rfl, rfl, rfl⟩

/-- Witness for C1 (amended): durable has today, cache is empty; the record
is copied into the cache and both stores end up with the identical record. -/
theorem sync_reconciliation_cases_witness :
    ∃ res file1 rc1,
      sync_data_sources "2024-06-01" (.good [("2024-06-01", [("EUR", (1 : Rat))])])
          (some []) = some (res, file1, rc1) ∧
      res = .record [("EUR", (1 : Rat))] ∧
      jsonRecordToday "2024-06-01" file1 = some [("EUR", (1 : Rat))] ∧
      redisRecordToday "2024-06-01" rc1 = some [("EUR", (1 : Rat))] := by
  obtain ⟨res, file1, rc1, h, _, _, hjson, _, _⟩ :=
    sync_reconciliation_cases "2024-06-01"
      (.good [("2024-06-01", [("EUR", (1 : Rat))])]) [] (Or.inl ⟨_, rfl⟩)
  obtain ⟨e1, _, e3, e4⟩ := hjson [("EUR", (1 : Rat))] (by rfl) rfl
  exact ⟨res, file1, rc1, h, e1, e3, e4⟩

/-- C2 counterexample: the durable store holds today's key (with an empty
Rate Record), yet the run invokes `extract_rates` — the returned record `{}`
is falsy in Python, so `if not latest_rates` treats it as "fetch needed". -/
theorem fetch_despite_existing_data_counterexample :
    jsonRecordToday "2024-06-01" (.good [("2024-06-01", [])]) = some [] ∧
    runMain "2024-06-01" (.good [("2024-06-01", [])]) (some [])
        (fun _ => .failure) 1 1 =
      some (true, .good [("2024-06-01", [])], some [("2024-06-01", [])]) :=
  ⟨rfl, by rfl⟩

/-- C2 (amended): with a well-formed (or absent) durable document, a run of
the pipeline never raises, and the remote fetch is invoked exactly when no
store holds today's data, or when exactly one store holds it and the record
it holds is empty (an empty record is falsy, so the synchronizer's return
fails the `if not latest_rates` test); in particular, whenever some store
holds a non-empty record for today — or both stores hold today's key — the
fetch is not invoked. -/
theorem runMain_fetch_condition (today : String) (file : JsonFile) (rc : RedisConn)
    (outcomes : Nat → AttemptOutcome) (N B : Nat)
    (hf : (∃ doc, file = .good doc) ∨ file = .missing) :
    ∃ fetched file1 rc1,
      runMain today file rc outcomes N B = some (fetched, file1, rc1) ∧
      (fetched = true ↔
        (jsonRecordToday today file = none ∧ redisRecordToday today rc = none) ∨
        (jsonRecordToday today file = some [] ∧ redisRecordToday today rc = none) ∨
        (redisRecordToday today rc = some [] ∧ jsonRecordToday today file = none)) := by
  rcases hf with ⟨doc, rfl⟩ | rfl
  · cases hj : getA doc today with
    | some r =>
      cases hkr : redisRecordToday today rc with
      | some r2 =>
        have hcr : check_existing_data_in_redis today rc = true := by
          rw [check_redis_eq_isSome, hkr]; rfl
        have hs := sync_eq_both today doc rc (by simp [hj]) hcr
        refine ⟨false, _, _, runMain_no_fetch today _ rc outcomes N B _ _ _ hs rfl, ?_⟩
        simp [jsonRecordToday, hj, hkr]
      | none =>
        have hcr : check_existing_data_in_redis today rc = false := by
          rw [check_redis_eq_isSome, hkr]; rfl
        have hs := sync_eq_json_only today doc rc r hj hcr
        by_cases hre : r = []
        · subst hre
          obtain ⟨file2, rc2, hrun, _⟩ := runMain_fetch_total today _ rc outcomes N B
            _ _ _ hs (by simp [SyncResult.truthy]) (Or.inl ⟨doc, rfl⟩)
          refine ⟨true, file2, rc2, hrun, ?_⟩
          simp [jsonRecordToday, hj, hkr]
        · have ht : (SyncResult.record r).truthy = true := by
            simp [SyncResult.truthy, hre]
          refine ⟨false, _, _, runMain_no_fetch today _ rc outcomes N B _ _ _ hs ht, ?_⟩
          simp [jsonRecordToday, hj, hkr, hre]
    | none =>
      cases hkr : redisRecordToday today rc with
      | some r2 =>
        obtain ⟨st, rfl⟩ : ∃ st, rc = some st := by
          cases rc with
          | none => simp [redisRecordToday] at hkr
          | some st => exact ⟨st, rfl⟩
        have hst : getA st today = some r2 := by
          simpa [redisRecordToday] using hkr
        have hs := sync_eq_redis_only_good today doc st r2 hj hst
        by_cases hre : r2 = []
        · subst hre
          obtain ⟨file2, rc2, hrun, _⟩ := runMain_fetch_total today _ _ outcomes N B
            _ _ _ hs (by simp [SyncResult.truthy]) (Or.inl ⟨_, rfl⟩)
          refine ⟨true, file2, rc2, hrun, ?_⟩
          simp [jsonRecordToday, hj, redisRecordToday, hst]
        · have ht : (SyncResult.record r2).truthy = true := by
            simp [SyncResult.truthy, hre]
          refine ⟨false, _, _,
            runMain_no_fetch today _ _ outcomes N B _ _ _ hs ht, ?_⟩
          simp [jsonRecordToday, hj, redisRecordToday, hst, hre]
      | none =>
        have hcr : check_existing_data_in_redis today rc = false := by
          rw [check_redis_eq_isSome, hkr]; rfl
        have hs := sync_eq_neither today (.good doc) rc
          (by simp [check_existing_data_in_json, hj]) hcr
        obtain ⟨file2, rc2, hrun, _⟩ := runMain_fetch_total today _ rc outcomes N B
          _ _ _ hs rfl (Or.inl ⟨doc, rfl⟩)
        refine ⟨true, file2, rc2, hrun, ?_⟩
        simp [jsonRecordToday, hj, hkr]
  · cases hkr : redisRecordToday today rc with
    | some r2 =>
      obtain ⟨st, rfl⟩ : ∃ st, rc = some st := by
        cases rc with
        | none => simp [redisRecordToday] at hkr
        | some st => exact ⟨st, rfl⟩
      have hst : getA st today = some r2 := by
        simpa [redisRecordToday] using hkr
      have hs := sync_eq_redis_only_missing today st r2 hst
      by_cases hre : r2 = []
      · subst hre
        obtain ⟨file2, rc2, hrun, _⟩ := runMain_fetch_total today _ _ outcomes N B
          _ _ _ hs (by simp [SyncResult.truthy]) (Or.inl ⟨_, rfl⟩)
        refine ⟨true, file2, rc2, hrun, ?_⟩
        simp [jsonRecordToday, redisRecordToday, hst]
      · have ht : (SyncResult.record r2).truthy = true := by
          simp [SyncResult.truthy, hre]
        refine ⟨false, _, _,
          runMain_no_fetch today _ _ outcomes N B _ _ _ hs ht, ?_⟩
        simp [jsonRecordToday, redisRecordToday, hst, hre]
    | none =>
      have hcr : check_existing_data_in_redis today rc = false := by
        rw [check_redis_eq_isSome, hkr]; rfl
      have hs := sync_eq_neither today .missing rc rfl hcr
      obtain ⟨file2, rc2, hrun, _⟩ := runMain_fetch_total today _ rc outcomes N B
        _ _ _ hs rfl (Or.inr rfl)
      refine ⟨true, file2, rc2, hrun, ?_⟩
      simp [jsonRecordToday, hkr]

/-- Witness for C2 (amended): durable has today's non-empty record, the
cache backend is absent — no fetch happens. -/
theorem runMain_fetch_condition_witness :
    ∃ file1 rc1,
      runMain "2024-06-01" (.good [("2024-06-01", [("EUR", (1 : Rat))])]) none
        (fun _ => .failure) 1 1 = some (false, file1, rc1) := by
  obtain ⟨fetched, file1, rc1, hrun, hiff⟩ := runMain_fetch_condition "2024-06-01"
    (.good [("2024-06-01", [("EUR", (1 : Rat))])]) none (fun _ => .failure) 1 1
    (Or.inl ⟨_, rfl⟩)
  have hfalse : fetched = false := by
    cases fetched with
    | false => rfl
    | true =>
      rcases hiff.1 rfl with ⟨ha, _⟩ | ⟨ha, _⟩ | ⟨ha, _⟩
      · exact absurd ha (by decide)
      · exact absurd ha (by decide)
      · exact absurd ha (by decide)
  rw [hfalse] at hrun
  exact ⟨file1, rc1, hrun⟩

end FxRates
